import Mathlib

set_option maxRecDepth 40000

/-!
Verification of the transaction-line parsing and classification engine of
`Bank_TXT_To_Excel.py` (the bank-statement TXT converter).  The Python
functions `clean_text`, `normalize_text`, `safe_float`,
`parse_counterparty_info`, `BankStatementParser.is_valid_transaction_line`,
`parse_transaction_line`, `parse_transaction_line_lenient`,
`classify_transaction`, `parse_transactions` and
`parse_transactions_fallback` are embedded shallowly as total Lean
functions over `List Char` (Python `str`), with `Rat` for Python floats
(every numeric literal reaching `float()` in these code paths is an exact
decimal) and `Option` for fallible results.
-/

namespace Forge

/-- Abbreviation turning a Lean string literal into the `List Char` the
embedding works on. -/
def str (s : String) : List Char := s.data

/-! ## Character-class models

Python's `re` module and `str` methods consult the Unicode database.  The
models below fix the relevant classes explicitly; they agree with CPython
on the whole character repertoire exercised by this program (ASCII, CJK
ideographs, fullwidth punctuation, and the common format/space controls).
-/

/-- `\d` of Python `re` restricted to ASCII decimal digits (codepoints
48–57); also the model for `str.isdigit` on this repertoire. -/
def isDig (c : Char) : Bool := 48 ≤ c.toNat && c.toNat ≤ 57

/-- Whitespace as matched by Python's `\s` and stripped by `str.strip` /
split by `str.split`: ASCII whitespace (space, TAB, LF, VT, FF, CR), the
C0 separators 28–31, NEL, NBSP and the Unicode space separators. -/
def pyIsSpace (c : Char) : Bool :=
  c.toNat = 32 || (9 ≤ c.toNat && c.toNat ≤ 13) ||
  (28 ≤ c.toNat && c.toNat ≤ 31) ||
  c.toNat = 0x85 || c.toNat = 0xa0 || c.toNat = 0x1680 ||
  (0x2000 ≤ c.toNat && c.toNat ≤ 0x200a) ||
  c.toNat = 0x2028 || c.toNat = 0x2029 || c.toNat = 0x202f ||
  c.toNat = 0x205f || c.toNat = 0x3000

/-- Model of Python `str.isprintable` for one character: false exactly on
the control (Cc), separator (Zl/Zp, Zs except the plain space) and the
common format (Cf) characters; true on everything else this program can
meet.  In particular `'​'` (ZERO WIDTH SPACE, Cf) is not printable
while `' '` is. -/
def pyIsPrintable (c : Char) : Bool :=
  !(c.toNat < 0x20 || c.toNat = 0x7f ||
    (0x80 ≤ c.toNat && c.toNat ≤ 0x9f) ||
    c.toNat = 0xa0 || c.toNat = 0xad || c.toNat = 0x61c || c.toNat = 0x1680 ||
    (0x2000 ≤ c.toNat && c.toNat ≤ 0x200f) ||
    (0x2028 ≤ c.toNat && c.toNat ≤ 0x202e) ||
    c.toNat = 0x205f || (0x2060 ≤ c.toNat && c.toNat ≤ 0x2064) ||
    c.toNat = 0x3000 || c.toNat = 0xfeff)

/-- Word characters for Python's Unicode `\w`: ASCII alphanumerics
(48–57, 65–90, 97–122), the underscore (95) and (for this program's
repertoire) CJK unified ideographs. -/
def pyIsWord (c : Char) : Bool :=
  isDig c || (97 ≤ c.toNat && c.toNat ≤ 122) ||
  (65 ≤ c.toNat && c.toNat ≤ 90) || c.toNat = 95 ||
  (0x4e00 ≤ c.toNat && c.toNat ≤ 0x9fff)

/-- The mojibake placeholder U+FFFD removed by `clean_text`. -/
def isMojibake (c : Char) : Bool := c.toNat = 0xfffd

/-- The C0/DEL control characters removed by `clean_text`'s
`re.sub(r'[\x00-\x08\x0b\x0c\x0e-\x1f\x7f]', '', text)`. -/
def isCtrlRemoved (c : Char) : Bool :=
  c.toNat ≤ 0x08 || c.toNat = 0x0b || c.toNat = 0x0c ||
  (0x0e ≤ c.toNat && c.toNat ≤ 0x1f) || c.toNat = 0x7f

/-- The sign class `[+-]` (codepoints 43, 45). -/
def isSignChar (c : Char) : Bool := c.toNat = 43 || c.toNat = 45

/-- The class `[\d,]` (comma is codepoint 44). -/
def isDigComma (c : Char) : Bool := isDig c || c.toNat = 44

/-- The decimal point `\.` (codepoint 46). -/
def isDotChar (c : Char) : Bool := c.toNat = 46

/-! ## Text utilities: `clean_text` and `normalize_text` -/

/-- State of the one-pass scanner for
`re.sub(r'\x1b\[[0-9;]*[mK]', '', text)`: outside any candidate, just
after `ESC`, or inside `ESC [` with the parameter bytes seen so far
(reversed). -/
inductive AnsiState where
  | norm : AnsiState
  | esc : AnsiState
  | body : List Char → AnsiState

/-- One-pass scanner equivalent to Python's
`re.sub(r'\x1b\[[0-9;]*[mK]', '', text)`: a candidate starts at each `ESC`;
`[0-9;]*` is consumed greedily and the sequence is dropped when the next
character is `m` or `K`, otherwise the pending characters are emitted
literally and scanning resumes at the offending character (which can
itself be an `ESC`, but never `[`, a digit or `;`). -/
def ansiGo : AnsiState → List Char → List Char
  | .norm, [] => []
  | .norm, c :: cs =>
      if c = '\x1b' then ansiGo .esc cs else c :: ansiGo .norm cs
  | .esc, [] => ['\x1b']
  | .esc, c :: cs =>
      if c = '[' then ansiGo (.body []) cs
      else if c = '\x1b' then '\x1b' :: ansiGo .esc cs
      else '\x1b' :: c :: ansiGo .norm cs
  | .body acc, [] => '\x1b' :: '[' :: acc.reverse
  | .body acc, c :: cs =>
      if c = 'm' || c = 'K' then ansiGo .norm cs
      else if isDig c || c = ';' then ansiGo (.body (c :: acc)) cs
      else if c = '\x1b' then ('\x1b' :: '[' :: acc.reverse) ++ ansiGo .esc cs
      else ('\x1b' :: '[' :: acc.reverse) ++ (c :: ansiGo .norm cs)

/-- `re.sub(r'\x1b\[[0-9;]*[mK]', '', text)`. -/
def ansiStrip (s : List Char) : List Char := ansiGo .norm s

/-- `re.sub(r'\s+', ' ', text)`: collapse each maximal whitespace run to a
single space.  The flag records whether the previous character was part of
a run. -/
def collapseGo : Bool → List Char → List Char
  | _, [] => []
  | inRun, c :: cs =>
      if pyIsSpace c then
        if inRun then collapseGo true cs else ' ' :: collapseGo true cs
      else c :: collapseGo false cs

/-- `re.sub(r'\s+', ' ', text)`. -/
def collapseWs (s : List Char) : List Char := collapseGo false s

/-- Python `str.strip()`. -/
def pyStrip (s : List Char) : List Char :=
  ((s.dropWhile pyIsSpace).reverse.dropWhile pyIsSpace).reverse

/-- `clean_text` (Bank_TXT_To_Excel.py:166-183): strip ANSI colour codes,
remove control characters and U+FFFD, collapse whitespace, strip. -/
def clean_text (text : List Char) : List Char :=
  if text = [] then []
  else
    let t1 := ansiStrip text
    let t2 := t1.filter (fun c => !isCtrlRemoved c)
    let t3 := t2.filter (fun c => !isMojibake c)
    let t4 := collapseWs t3
    pyStrip t4

/-- The punctuation kept by `normalize_text` even when not printable
(`'，。！？；："\''`); all of these are in fact printable. -/
def keepPunct (c : Char) : Bool :=
  c = '，' || c = '。' || c = '！' || c = '？' || c = '；' || c = '：' ||
  c = '"' || c = Char.ofNat 39

/-- `normalize_text` (Bank_TXT_To_Excel.py:185-195): `clean_text`, then a
filter keeping printable characters (plus a small punctuation allowlist),
then `strip` — twice, as in the source. -/
def normalize_text (text : List Char) : List Char :=
  if text = [] then []
  else
    let t := clean_text text
    let t2 := pyStrip (t.filter (fun c => pyIsPrintable c || keepPunct c))
    pyStrip t2

/-! ## A backtracking matcher for character-class sequences

Every regular expression this program applies is a concatenation of
bounded repetitions of one-character classes (`\d{8}`, `\s+`, `[\d,.-]+`,
`[+-]?`, …).  `matchSeq` implements Python's leftmost anchored match for
such a sequence with the exact greedy-with-backtracking semantics: each
repetition first consumes the maximal admissible run and, when the rest of
the pattern fails, gives characters back one at a time down to its lower
bound. -/

/-- One regex item: a character class repeated between `lo` and `hi` times
(`hi = none` means unbounded), optionally a capture group. -/
structure RItem where
  cls : Char → Bool
  lo : Nat
  hi : Option Nat
  cap : Bool

/-- Length of the maximal leading run of characters in the class. -/
def maxRun (cls : Char → Bool) : List Char → Nat
  | [] => 0
  | c :: cs => if cls c then maxRun cls cs + 1 else 0

/-- The count a greedy repetition tries first: the maximal run, capped by
the item's upper bound. -/
def itemMax (it : RItem) (s : List Char) : Nat :=
  match it.hi with
  | none => maxRun it.cls s
  | some h => min (maxRun it.cls s) h

/-- Prepend the matched fragment when the item is a capture group. -/
def pushCap (it : RItem) (m : List Char) (caps : List (List Char)) :
    List (List Char) :=
  if it.cap then m :: caps else caps

/-- Try repetition counts from `n` down to `it.lo`, calling the
continuation `k` (the matcher for the rest of the pattern) on the
remaining input; the first success wins.  This is exactly the
backtracking order of a greedy `{lo,hi}` quantifier. -/
def tryCounts (it : RItem)
    (k : List Char → Option (List (List Char) × List Char))
    (s : List Char) : Nat → Option (List (List Char) × List Char)
  | 0 =>
      if it.lo = 0 then
        match k s with
        | some (caps, rem) => some (pushCap it [] caps, rem)
        | none => none
      else none
  | n + 1 =>
      if n + 1 < it.lo then none
      else
        match k (s.drop (n + 1)) with
        | some (caps, rem) => some (pushCap it (s.take (n + 1)) caps, rem)
        | none => tryCounts it k s n

/-- Anchored match of an item sequence at the head of `s`; on success
returns the captured fragments (in pattern order) and the unconsumed
remainder.  Defined through `List.rec` so that it reduces definitionally. -/
def matchSeq (items : List RItem) :
    List Char → Option (List (List Char) × List Char) :=
  List.rec (motive := fun _ => List Char → Option (List (List Char) × List Char))
    (fun s => some ([], s))
    (fun it _ ih s => tryCounts it ih s (itemMax it s))
    items

/-- Unanchored search (`re.search`): try an anchored match at every
position, leftmost first; report whether one succeeds. -/
def searchSeq (items : List RItem) : List Char → Bool
  | [] => (matchSeq items []).isSome
  | c :: cs => (matchSeq items (c :: cs)).isSome || searchSeq items cs

/-! ## The concrete patterns -/

/-- `^\s*\d{8}\s+` — the leading-date shape used by
`is_valid_transaction_line`, `find_transaction_start` and the
continuation check of `parse_transactions`. -/
def dateStartItems : List RItem :=
  [⟨pyIsSpace, 0, none, false⟩, ⟨isDig, 8, some 8, false⟩,
   ⟨pyIsSpace, 1, none, false⟩]

/-- `re.match(r'^\s*\d{8}\s+', s)` succeeds. -/
def matchDateStart (s : List Char) : Bool := (matchSeq dateStartItems s).isSome

/-- `[\d,]+\.\d{2}` — the decimal-amount shape. -/
def amountItems : List RItem :=
  [⟨isDigComma, 1, none, false⟩,
   ⟨isDotChar, 1, some 1, false⟩, ⟨isDig, 2, some 2, false⟩]

/-- `re.search(r'[\d,]+\.\d{2}', s)` succeeds. -/
def searchAmount (s : List Char) : Bool := searchSeq amountItems s

/-- `\d+\s*/\s*\d+` — the page-number shape. -/
def pageItems : List RItem :=
  [⟨isDig, 1, none, false⟩, ⟨pyIsSpace, 0, none, false⟩,
   ⟨fun c => c = '/', 1, some 1, false⟩, ⟨pyIsSpace, 0, none, false⟩,
   ⟨isDig, 1, none, false⟩]

/-- `re.search(r'\d+\s*/\s*\d+', s)` succeeds. -/
def searchPage (s : List Char) : Bool := searchSeq pageItems s

/-- The class `[\d,.-]` of the strict pattern's amount/balance groups. -/
def isAmtChar (c : Char) : Bool :=
  isDig c || c.toNat = 44 || c.toNat = 46 || c.toNat = 45

/-- The strict transaction pattern
`(\d{8})\s+(\w+)\s+([\d,.-]+)\s+([\d,.-]+)\s+(\S+)\s+(.+)` of
`parse_transaction_line` and `parse_transactions_fallback`. -/
def strictItems : List RItem :=
  [⟨isDig, 8, some 8, true⟩, ⟨pyIsSpace, 1, none, false⟩,
   ⟨pyIsWord, 1, none, true⟩, ⟨pyIsSpace, 1, none, false⟩,
   ⟨isAmtChar, 1, none, true⟩, ⟨pyIsSpace, 1, none, false⟩,
   ⟨isAmtChar, 1, none, true⟩, ⟨pyIsSpace, 1, none, false⟩,
   ⟨fun c => !pyIsSpace c, 1, none, true⟩, ⟨pyIsSpace, 1, none, false⟩,
   ⟨fun c => c ≠ '\n', 1, none, true⟩]

/-- `re.match` of the strict pattern: the six captured groups and the
(always empty, since `.+` is greedy and the line has no newline)
remainder. -/
def matchStrict (s : List Char) : Option (List (List Char) × List Char) :=
  matchSeq strictItems s

/-- `[+-]?` of the numeric-token pattern. -/
def numSignItem : RItem := ⟨isSignChar, 0, some 1, false⟩

/-- `\s*` of the numeric-token pattern. -/
def numSpItem : RItem := ⟨pyIsSpace, 0, none, false⟩

/-- `\d` of the numeric-token pattern. -/
def numDigItem : RItem := ⟨isDig, 1, some 1, false⟩

/-- `[\d,]*` of the numeric-token pattern. -/
def numRunItem : RItem := ⟨isDigComma, 0, none, false⟩

/-- `\.?` of the numeric-token pattern. -/
def numDotItem : RItem := ⟨isDotChar, 0, some 1, false⟩

/-- `\d*` of the numeric-token pattern. -/
def numFracItem : RItem := ⟨isDig, 0, none, false⟩

/-- `([+-]?\s*\d[\d,]*\.?\d*)` — the numeric-token pattern of the lenient
strategy. -/
def numTokItems : List RItem :=
  [numSignItem, numSpItem, numDigItem, numRunItem, numDotItem, numFracItem]

/-- `re.findall(r'([+-]?\s*\d[\d,]*\.?\d*)', s)`: scan left to right,
emitting each non-overlapping leftmost match and resuming after it.  The
fuel argument bounds the recursion; every match consumes at least one
character, so fuel `s.length` is always enough. -/
def findAllGo : Nat → List Char → List (List Char)
  | 0, _ => []
  | _, [] => []
  | fuel + 1, c :: cs =>
      match matchSeq numTokItems (c :: cs) with
      | some (_, rem) =>
          (c :: cs).take ((c :: cs).length - rem.length) ::
            findAllGo fuel rem
      | none => findAllGo fuel cs

/-- All numeric tokens of a line, in order. -/
def findAllNums (s : List Char) : List (List Char) := findAllGo s.length s

/-! ## Numbers: Python `float()` on the token shapes this program feeds it -/

/-- Numeric value of a digit string (most significant first). -/
def digitsVal (ds : List Char) : Nat :=
  ds.foldl (fun n c => 10 * n + (c.toNat - '0'.toNat)) 0

/-- Split a character list at the first `'.'`; `none` when there is no
dot. -/
def splitDot : List Char → Option (List Char × List Char)
  | [] => none
  | c :: cs =>
      if c = '.' then some ([], cs)
      else match splitDot cs with
        | some (a, b) => some (c :: a, b)
        | none => none

/-- Model of Python `float(s)` on the tokens these code paths produce:
an optional single leading sign, then digits with at most one decimal
point and at least one digit; anything else (including a second dot, a
stray sign or любой other character) raises, i.e. returns `none`.
(Exponents, `inf`/`nan` and underscores cannot occur in these tokens:
every call site first restricts the characters to `[\d,.+-]` and spaces
and strips the commas and spaces.) -/
def pyFloat (s : List Char) : Option Rat :=
  let sb : Bool × List Char :=
    match s with
    | [] => (false, [])
    | c :: rest =>
        if c = '-' then (true, rest)
        else if c = '+' then (false, rest)
        else (false, c :: rest)
  let body := sb.2
  match splitDot body with
  | none =>
      if body ≠ [] && body.all isDig then
        some (mkRat (if sb.1 then -(digitsVal body : Int) else digitsVal body) 1)
      else none
  | some (i, f) =>
      if (i ++ f) ≠ [] && i.all isDig && f.all isDig then
        let n : Int := digitsVal i * 10 ^ f.length + digitsVal f
        some (mkRat (if sb.1 then -n else n) (10 ^ f.length))
      else none

/-- Substring containment, Python's `needle in hay`. -/
def containsSub (pat : List Char) : List Char → Bool
  | [] => pat.isPrefixOf []
  | c :: cs => pat.isPrefixOf (c :: cs) || containsSub pat cs

/-- `hay.replace(pat, '', 1)` for a nonempty `pat`: remove the first
occurrence.  Fuel-driven; fuel `s.length` suffices. -/
def replaceFirst (pat : List Char) : Nat → List Char → List Char
  | 0, s => s
  | _, [] => []
  | fuel + 1, c :: cs =>
      if pat ≠ [] && pat.isPrefixOf (c :: cs) then (c :: cs).drop pat.length
      else c :: replaceFirst pat fuel cs

/-- `hay.replace(pat, '')` for a nonempty `pat`: remove every
(non-overlapping, leftmost) occurrence. -/
def removeAllSub (pat : List Char) : Nat → List Char → List Char
  | 0, s => s
  | _, [] => []
  | fuel + 1, c :: cs =>
      if pat ≠ [] && pat.isPrefixOf (c :: cs) then
        removeAllSub pat fuel ((c :: cs).drop pat.length)
      else c :: removeAllSub pat fuel cs

/-- `[-+]?\d*\.?\d+` — the digit-extraction fallback inside `safe_float`. -/
def floatFallbackItems : List RItem :=
  [⟨isSignChar, 0, some 1, false⟩, ⟨isDig, 0, none, false⟩,
   ⟨isDotChar, 0, some 1, false⟩, ⟨isDig, 1, none, false⟩]

/-- `re.search(r'[-+]?\d*\.?\d+', s).group()`: the leftmost match. -/
def searchFloatTok : List Char → Option (List Char)
  | [] => none
  | c :: cs =>
      match matchSeq floatFallbackItems (c :: cs) with
      | some (_, rem) => some ((c :: cs).take ((c :: cs).length - rem.length))
      | none => searchFloatTok cs

/-- `safe_float` (Bank_TXT_To_Excel.py:233-265), string branch: strip,
drop commas and spaces, decode `(...)` as negative, keep an explicit
sign, decode a `CR`/`cr` suffix as negative, then `float()` with a
digit-extraction fallback. -/
def safe_float (v : List Char) (dflt : Rat) : Rat :=
  let v1 := pyStrip v
  let v2 := v1.filter (fun c => c ≠ ',' && c ≠ ' ')
  let v3 :=
    if v2.head? = some '(' && v2.getLast? = some ')' then
      '-' :: (v2.drop 1).dropLast
    else if v2.head? = some '-' || v2.head? = some '+' then v2
    else if containsSub (str "CR") v2 || containsSub (str "cr") v2 then
      '-' :: removeAllSub (str "cr") v2.length
              (removeAllSub (str "CR") v2.length v2)
    else v2
  match pyFloat v3 with
  | some q => q
  | none =>
      match searchFloatTok v3 with
      | some m =>
          match pyFloat m with
          | some q => q
          | none => dflt
      | none => dflt

/-! ## Dates: `datetime.strptime(s, '%Y%m%d')`, `%Y-%m-%d` and `%A` -/

/-- Gregorian leap year (as in Python's `datetime`). -/
def isLeap (y : Nat) : Bool := y % 4 = 0 && (y % 100 ≠ 0 || y % 400 = 0)

/-- Days in a month. -/
def daysInMonth (y m : Nat) : Nat :=
  if m = 2 then (if isLeap y then 29 else 28)
  else if m = 4 || m = 6 || m = 9 || m = 11 then 30
  else 31

/-- `datetime.strptime(ds, '%Y%m%d')`: eight digits splitting into a valid
proleptic-Gregorian date with year 1–9999. -/
def strptimeYmd (ds : List Char) : Option (Nat × Nat × Nat) :=
  if ds.length = 8 && ds.all isDig then
    let y := digitsVal (ds.take 4)
    let m := digitsVal ((ds.drop 4).take 2)
    let d := digitsVal (ds.drop 6)
    if 1 ≤ y && 1 ≤ m && m ≤ 12 && 1 ≤ d && d ≤ daysInMonth y m then
      some (y, m, d)
    else none
  else none

/-- Decimal digit character. -/
def digitChar (n : Nat) : Char := Char.ofNat ('0'.toNat + n % 10)

/-- Two-digit zero-padded decimal (`%m`, `%d`). -/
def pad2 (n : Nat) : List Char := [digitChar (n / 10), digitChar n]

/-- Four-digit zero-padded decimal (`%Y`; every date this program formats
has a four-digit year). -/
def pad4 (n : Nat) : List Char :=
  [digitChar (n / 1000), digitChar (n / 100), digitChar (n / 10), digitChar n]

/-- `date_obj.strftime('%Y-%m-%d')`. -/
def formatYmd (d : Nat × Nat × Nat) : List Char :=
  pad4 d.1 ++ '-' :: pad2 d.2.1 ++ '-' :: pad2 d.2.2

/-- Day of week by Sakamoto's method, Sunday = 0. -/
def dayOfWeek (d : Nat × Nat × Nat) : Nat :=
  let t := [0, 3, 2, 5, 0, 3, 5, 1, 4, 6, 2, 4]
  let y := if d.2.1 < 3 then d.1 - 1 else d.1
  (y + y / 4 - y / 100 + y / 400 + t.getD (d.2.1 - 1) 0 + d.2.2) % 7

/-- `date_obj.strftime('%A')` (English locale). -/
def weekdayName (d : Nat × Nat × Nat) : List Char :=
  ([str "Sunday", str "Monday", str "Tuesday", str "Wednesday",
    str "Thursday", str "Friday", str "Saturday"]).getD (dayOfWeek d) []

/-! ## Small string helpers shared by the parser -/

/-- ASCII lowercasing; `str.lower()` is the identity on the CJK characters
this program handles. -/
def pyLower (s : List Char) : List Char :=
  s.map (fun c => if 'A' ≤ c && c ≤ 'Z' then Char.ofNat (c.toNat + 32) else c)

/-- Python `str.split()` (no argument): split on whitespace runs,
discarding empty fragments.  `cur` is the current fragment, reversed. -/
def splitWsGo : List Char → List Char → List (List Char)
  | [], cur => if cur = [] then [] else [cur.reverse]
  | c :: cs, cur =>
      if pyIsSpace c then
        if cur = [] then splitWsGo cs [] else cur.reverse :: splitWsGo cs []
      else splitWsGo cs (c :: cur)

/-- Python `str.split()`. -/
def pySplitWs (s : List Char) : List (List Char) := splitWsGo s []

/-- `.replace(',', '').replace(' ', '')` as applied to the lenient
strategy's numeric tokens. -/
def stripCommaSpace (t : List Char) : List Char :=
  t.filter (fun c => c ≠ ',' && c ≠ ' ')

/-- `re.search(r'(\d{8})', s)`: the leftmost run of eight digits. -/
def search8 : List Char → Option (List Char)
  | [] => none
  | c :: cs =>
      if ((c :: cs).take 8).length = 8 && ((c :: cs).take 8).all isDig then
        some ((c :: cs).take 8)
      else search8 cs

/-- `re.sub(r'\d{8}', '', s, 1)`: delete the leftmost run of eight
digits.  Fuel-driven; fuel `s.length` suffices. -/
def rm8first : Nat → List Char → List Char
  | 0, s => s
  | _, [] => []
  | fuel + 1, c :: cs =>
      if ((c :: cs).take 8).length = 8 && ((c :: cs).take 8).all isDig then
        (c :: cs).drop 8
      else c :: rm8first fuel cs

/-! ## `parse_counterparty_info` (Bank_TXT_To_Excel.py:351-379) -/

/-- Match of `\b\d{lo,hi}\b` anchored at the current position, where
`prevWord` says whether the character just before the position is a word
character.  Since digits are word characters, the greedy quantifier can
only succeed by taking the whole digit run (any shorter take leaves a
digit, i.e. a word character, after the match, killing the closing `\b`),
so the run must have length in `[lo, hi]` and be followed by a non-word
character or the end. -/
def matchBdAt (lo hi : Nat) (prevWord : Bool) (s : List Char) : Option Nat :=
  if prevWord then none
  else
    let r := maxRun isDig s
    if lo ≤ r ∧ r ≤ hi then
      match (s.drop r).head? with
      | none => some r
      | some c => if pyIsWord c then none else some r
    else none

/-- Combined `re.findall(p, s)[0]?` and `re.sub(p, '', s)` for
`p = r'\b\d{lo,hi}\b'`: the leftmost match (if any) and the text with all
non-overlapping matches removed.  Fuel-driven; each match consumes at
least `lo ≥ 1` characters. -/
def scanBd (lo hi : Nat) : Nat → Bool → List Char →
    Option (List Char) × List Char
  | 0, _, s => (none, s)
  | _, _, [] => (none, [])
  | fuel + 1, pw, c :: cs =>
      match matchBdAt lo hi pw (c :: cs) with
      | some k =>
          let rest := scanBd lo hi fuel true ((c :: cs).drop k)
          (some ((c :: cs).take k), rest.2)
      | none =>
          let rest := scanBd lo hi fuel (pyIsWord c) cs
          (rest.1, c :: rest.2)

/-- `re.sub(r'[\s\-_]+$', '', s)`: trim a trailing run of whitespace,
hyphens and underscores. -/
def trimTrailSep (s : List Char) : List Char :=
  (s.reverse.dropWhile (fun c => pyIsSpace c || c = '-' || c = '_')).reverse

/-- `parse_counterparty_info`: split free counterparty text into
(name, account), trying 16–19, then 12–15, then 8–11 digit runs with word
boundaries; the name is the text with all runs of the winning pattern
removed, stripped of trailing separators.  Python's `None` account is
`none`. -/
def parse_counterparty_info (text : List Char) : List Char × Option (List Char) :=
  if text = [] then ([], none)
  else
    let t := normalize_text text
    let try1 := scanBd 16 19 t.length false t
    match try1.1 with
    | some acct => (trimTrailSep (pyStrip try1.2), some acct)
    | none =>
        let try2 := scanBd 12 15 t.length false t
        match try2.1 with
        | some acct => (trimTrailSep (pyStrip try2.2), some acct)
        | none =>
            let try3 := scanBd 8 11 t.length false t
            match try3.1 with
            | some acct => (trimTrailSep (pyStrip try3.2), some acct)
            | none => (t, none)

/-! ## `classify_transaction` (Bank_TXT_To_Excel.py:874-905) -/

/-- The ordered keyword table: the nine `TransactionType` categories, each
with its keyword list in declared order. -/
def catTable : List (List Char × List (List Char)) :=
  [(str "转账", [str "转账", str "汇款", str "转出", str "转入",
      str "transfer", str "跨行", str "手机转账", str "汇款汇入"]),
   (str "取现", [str "取现", str "atm", str "取款", str "withdrawal",
      str "现金取款"]),
   (str "存款", [str "存款", str "存入", str "deposit", str "现金存款"]),
   (str "消费", [str "消费", str "pos", str "支付", str "支付宝",
      str "微信", str "消费", str "shopping", str "美团", str "滴滴",
      str "京东"]),
   (str "工资", [str "工资", str "薪资", str "薪金", str "salary",
      str "绩效", str "奖金"]),
   (str "利息", [str "利息", str "结息", str "interest", str "利息收入"]),
   (str "手续费", [str "手续费", str "管理费", str "年费", str "fee",
      str "charge", str "服务费", str "工本费"]),
   (str "还款", [str "还款", str "还贷", str "repayment",
      str "信用卡还款"]),
   (str "贷款", [str "贷款", str "放款", str "loan", str "借款"])]

/-- `classify_transaction`: first keyword hit (categories in declared
order, substring test against the lowercased type label and counterparty)
wins; otherwise amount/counterparty heuristics.  Note the "unknown"
branch tests `not counterparty or counterparty in ["", " "]`, i.e. only
the empty string and the single-space string. -/
def classify_transaction (transType cp : List Char) (amount : Rat) :
    List Char :=
  let t := pyLower transType
  let c := pyLower cp
  match catTable.find? (fun p => p.2.any fun k => containsSub k t || containsSub k c) with
  | some p => p.1
  | none =>
      if (50000 : Rat) ≤ amount ∧ cp ≠ [] then str "大额转账"
      else if containsSub (str "公司") c || containsSub (str "有限") c ||
          containsSub (str "集团") c || containsSub (str "科技") c then
        str "对公交易"
      else if cp = [] ∨ cp = [' '] then str "未知交易"
      else str "其他"

/-! ## The line validator (Bank_TXT_To_Excel.py:667-697) -/

/-- The denylist of `is_valid_transaction_line`. -/
def skipKeywords : List (List Char) :=
  [str "合同ID号:", str "版本:", str "温馨提示", str "合计统计",
   str "合计收入", str "合计支出", str "九江银行APP", str "可验证合同真伪",
   str "=====", str "-----", str "*****", str "记账日期", str "Date",
   str "Currency", str "Transaction Amount"]

/-- `is_valid_transaction_line`: length, denylist, page-number, leading
date and decimal-amount checks, in source order. -/
def is_valid_transaction_line (line : List Char) : Bool :=
  if line = [] ∨ (pyStrip line).length < 10 then false
  else
    let lc := normalize_text line
    if skipKeywords.any (fun k => containsSub k lc) then false
    else if searchPage lc ∧ lc.length < 20 then false
    else if !matchDateStart lc then false
    else if !searchAmount lc then false
    else true

/-! ## The Transaction record (§3 of the spec; the dict of
`parse_transaction_line`) -/

/-- One parsed transaction.  Field ↔ dict key: `riqi` '日期',
`xingqi` '星期', `recordDate` '记账日期', `currency` '货币',
`amount` '交易金额', `direction` '交易方向', `directionZh` '交易方向中文',
`balance` '联机余额', `transType` '交易类型', `category` '交易分类',
`counterpartyName` '对方名称', `counterpartyAccount` '对方账号' (Python
`None` ↦ `none`, `""` ↦ `some []`), `rawCounterparty` '原始对手信息'. -/
structure Transaction where
  riqi : List Char
  xingqi : List Char
  recordDate : List Char
  currency : List Char
  amount : Rat
  direction : List Char
  directionZh : List Char
  balance : Rat
  transType : List Char
  category : List Char
  counterpartyName : List Char
  counterpartyAccount : Option (List Char)
  rawCounterparty : List Char
  deriving DecidableEq, Repr

/-! ## The strict strategy (Bank_TXT_To_Excel.py:699-786) -/

/-- The strict path's counterparty split: `counterparty.strip().split()`;
with at least two parts whose last is `^\d{8,19}$`, the last part is the
account and the rest joins as the name; otherwise the whole capture is
the name and the account stays `""`. -/
def splitCounterStrict (cp : List Char) : List Char × List Char :=
  let parts := pySplitWs (pyStrip cp)
  if 2 ≤ parts.length then
    match parts.getLast? with
    | some lastP =>
        if 8 ≤ lastP.length ∧ lastP.length ≤ 19 ∧ lastP.all isDig then
          (List.intercalate [' '] parts.dropLast, lastP)
        else (cp, [])
    | none => (cp, [])
  else (cp, [])

/-- Body of the strict strategy after a pattern match, from the six
captures: format the date (an invalid calendar date keeps the raw digit
string and an empty weekday — the inner `try/except` of the source),
strip thousands separators and convert (failure aborts the line), derive
direction and magnitude, split the counterparty, classify, assemble. -/
def strictBuild (d cur a b ty cp : List Char) : Option Transaction :=
  let dateInfo :=
    match strptimeYmd d with
    | some dt => (formatYmd dt, weekdayName dt)
    | none => (d, ([] : List Char))
  match pyFloat (a.filter (· ≠ ',')), pyFloat (b.filter (· ≠ ',')) with
  | some am, some bal =>
      let dir := if (0 : Rat) ≤ am then str "收入" else str "支出"
      let amt := if (0 : Rat) ≤ am then am else |am|
      let nc := splitCounterStrict cp
      some { riqi := dateInfo.1, xingqi := dateInfo.2, recordDate := d,
             currency := cur, amount := amt, direction := dir,
             directionZh := dir, balance := bal, transType := ty,
             category := classify_transaction ty nc.1 amt,
             counterpartyName := nc.1, counterpartyAccount := some nc.2,
             rawCounterparty := cp }
  | _, _ => none

/-! ## The lenient strategy (Bank_TXT_To_Excel.py:788-872) -/

/-- `parse_transaction_line_lenient`: first 8-digit run as the date (an
invalid calendar date is `None` here), the first two numeric tokens as
amount and balance, the date and those tokens removed to leave the
type/counterparty remainder, currency fixed to `"CNY"`. -/
def parse_transaction_line_lenient (lc : List Char) : Option Transaction :=
  match search8 lc with
  | none => none
  | some dateStr =>
      match strptimeYmd dateStr with
      | none => none
      | some dt =>
          match findAllNums lc with
          | t0 :: t1 :: _ =>
              match pyFloat (stripCommaSpace t0), pyFloat (stripCommaSpace t1) with
              | some am, some bal =>
                  let dir := if (0 : Rat) ≤ am then str "收入" else str "支出"
                  let amt := if (0 : Rat) ≤ am then am else |am|
                  let rem0 := rm8first lc.length lc
                  let rem1 := ((findAllNums lc).take 2).foldl
                    (fun r tok =>
                      if containsSub tok r then replaceFirst tok r.length r
                      else r) rem0
                  let parts := pySplitWs (pyStrip rem1)
                  let tc :=
                    match parts with
                    | [] => (str "转账", ([] : List Char))
                    | p :: ps => (p, List.intercalate [' '] ps)
                  let nc := parse_counterparty_info tc.2
                  some { riqi := formatYmd dt, xingqi := weekdayName dt,
                         recordDate := dateStr, currency := str "CNY",
                         amount := amt, direction := dir, directionZh := dir,
                         balance := bal, transType := tc.1,
                         category := classify_transaction tc.1 nc.1 amt,
                         counterpartyName := nc.1,
                         counterpartyAccount := nc.2,
                         rawCounterparty := tc.2 }
              | _, _ => none
          | _ => none

/-- `parse_transaction_line`: validator, then the strict pattern, then
the lenient fallback when the strict pattern does not match. -/
def parse_transaction_line (line : List Char) : Option Transaction :=
  if is_valid_transaction_line line then
    let lc := normalize_text line
    match matchStrict lc with
    | some ([d, cur, a, b, ty, cp], _) => strictBuild d cur a b ty cp
    | some _ => none
    | none => parse_transaction_line_lenient lc
  else none

/-! ## The document pass (Bank_TXT_To_Excel.py:642-665, 907-1049) -/

/-- A header row for `find_transaction_start`: contains '记账日期' or
'Date' and also '交易金额' or 'Transaction Amount'. -/
def headerLine (l : List Char) : Bool :=
  (containsSub (str "记账日期") l || containsSub (str "Date") l) &&
  (containsSub (str "交易金额") l || containsSub (str "Transaction Amount") l)

/-- A data row for `find_transaction_start`: normalized text starts with
the 8-digit date shape and contains a decimal amount. -/
def dataLine (l : List Char) : Bool :=
  matchDateStart (normalize_text l) && searchAmount (normalize_text l)

/-- `find_transaction_start`: the line after the first header row, else
the first data row, else 0. -/
def find_transaction_start (lines : List (List Char)) : Nat :=
  match lines.findIdx? headerLine with
  | some i => i + 1
  | none =>
      match lines.findIdx? dataLine with
      | some i => i
      | none => 0

/-- Continuation merge: append `' ' + normalize_text line` to the
previous transaction's '原始对手信息' and '对方名称'. -/
def mergeCont (t : Transaction) (line : List Char) : Transaction :=
  { t with rawCounterparty := t.rawCounterparty ++ ' ' :: normalize_text line,
           counterpartyName := t.counterpartyName ++ ' ' :: normalize_text line }

/-- Apply the continuation merge to the last transaction of the list (the
Python code mutates `prev_transaction`, which aliases the last appended
dict). -/
def modifyLastMerge : List Transaction → List Char → List Transaction
  | [], _ => []
  | [t], l => [mergeCont t l]
  | t :: t2 :: ts, l => t :: modifyLastMerge (t2 :: ts) l

/-- One iteration of the `parse_transactions` loop.  State: the
transactions so far and whether the previous line yielded (or was merged
into) a transaction.  A line following a transaction that does not match
`^\s*\d{8}\s+` (on the raw line) is merged as continuation text and never
parsed; otherwise the line is parsed and the carry-over state updated. -/
def parseStep (st : List Transaction × Bool) (line : List Char) :
    List Transaction × Bool :=
  if st.2 && !matchDateStart line then (modifyLastMerge st.1 line, st.2)
  else
    match parse_transaction_line line with
    | some t => (st.1 ++ [t], true)
    | none => (st.1, false)

/-- The primary line-by-line pass of `parse_transactions`. -/
def primaryPass (lines : List (List Char)) : List Transaction :=
  ((lines.drop (find_transaction_start lines)).foldl parseStep ([], false)).1

/-- The fallback's own (shorter) denylist. -/
def fbSkipKeywords : List (List Char) :=
  [str "合同ID号:", str "版本:", str "温馨提示", str "合计统计"]

/-- Body of the fallback after a strict match: here an invalid calendar
date raises inside the per-line `try`, so the line is skipped (`none`) —
unlike the primary strict path. -/
def fallbackBuild (d cur a b ty cp : List Char) : Option Transaction :=
  match strptimeYmd d with
  | none => none
  | some dt =>
      match pyFloat (a.filter (· ≠ ',')), pyFloat (b.filter (· ≠ ',')) with
      | some am, some bal =>
          let dir := if (0 : Rat) ≤ am then str "收入" else str "支出"
          let amt := if (0 : Rat) ≤ am then am else |am|
          let nc := splitCounterStrict cp
          some { riqi := formatYmd dt, xingqi := weekdayName dt,
                 recordDate := d, currency := cur, amount := amt,
                 direction := dir, directionZh := dir, balance := bal,
                 transType := ty,
                 category := classify_transaction ty nc.1 amt,
                 counterpartyName := nc.1, counterpartyAccount := some nc.2,
                 rawCounterparty := cp }
      | _, _ => none

/-- One line of `parse_transactions_fallback`: skip the four noise
keywords, otherwise accept exactly the strict-pattern matches. -/
def fallbackLine (line : List Char) : Option Transaction :=
  let lc := normalize_text line
  if fbSkipKeywords.any (fun k => containsSub k lc) then none
  else
    match matchStrict lc with
    | some ([d, cur, a, b, ty, cp], _) => fallbackBuild d cur a b ty cp
    | some _ => none
    | none => none

/-- `parse_transactions`: the primary pass; when it yields nothing,
`parse_transactions_fallback` rescans every line. -/
def parse_transactions (lines : List (List Char)) : List Transaction :=
  let p := primaryPass lines
  if p = [] then lines.filterMap fallbackLine else p

/-- **Modelled from the claim's reading of the spec** (§4.7: "re-scan
every line in the document with the strict pattern only … and accept
whatever matches"): a fallback that matches *every* line against the
strict pattern, with no keyword skipping.  Kept separate from
`fallbackLine` (the source function) to compare the two. -/
def specFallbackAccept (line : List Char) : Option Transaction :=
  match matchStrict (normalize_text line) with
  | some ([d, cur, a, b, ty, cp], _) => fallbackBuild d cur a b ty cp
  | _ => none

/-! ## Claim-facing predicates -/

/-- Validator check 1: the trimmed line has at least 10 characters. -/
def checkMinLen (line : List Char) : Bool := decide (10 ≤ (pyStrip line).length)

/-- Validator check 2: none of the denylist substrings occurs. -/
def checkNoNoise (lc : List Char) : Bool :=
  !(skipKeywords.any fun k => containsSub k lc)

/-- Validator check 3: not a short bare "N / M" page-number line. -/
def checkNoPage (lc : List Char) : Bool :=
  !(searchPage lc && decide (lc.length < 20))

/-- The closed 13-value category vocabulary of `classify_transaction`:
the nine keyword categories plus 大额转账 (largeTransfer), 对公交易
(corporate), 未知交易 (unknown) and 其他 (other). -/
def allCategories : List (List Char) :=
  [str "转账", str "取现", str "存款", str "消费", str "工资", str "利息",
   str "手续费", str "还款", str "贷款", str "大额转账", str "对公交易",
   str "未知交易", str "其他"]

/-! # Theorems -/

/-! ## Claim C1 -/

/-- Claim C1, counterexample: on the single input line
`20250113 CNY 300,000.00 304,294.31 转账 廖灵娇 6214830373529923` the
produced transaction's category is not `大额转账` (largeTransfer), contrary
to the claim: the keyword table is consulted first and the type label
`转账` hits the transfer category before the amount heuristic is ever
reached. -/
theorem c1_counterexample :
    (parse_transactions
        [str "20250113 CNY 300,000.00 304,294.31 转账 廖灵娇 6214830373529923"]).map
      (fun t => t.category) ≠ [str "大额转账"] := by decide

/-- Claim C1 as amended: the line yields exactly one transaction with
date 2025-01-13, currency CNY, amount 300000, direction income (收入),
balance 304294.31, raw type 转账, counterparty name 廖灵娇 and account
6214830373529923 — but category `转账` (transfer, via the keyword table),
not `大额转账`. -/
theorem c1_amended :
    parse_transactions
        [str "20250113 CNY 300,000.00 304,294.31 转账 廖灵娇 6214830373529923"] =
      [{ riqi := str "2025-01-13", xingqi := str "Monday",
         recordDate := str "20250113", currency := str "CNY",
         amount := 300000, direction := str "收入", directionZh := str "收入",
         balance := mkRat 30429431 100, transType := str "转账",
         category := str "转账", counterpartyName := str "廖灵娇",
         counterpartyAccount := some (str "6214830373529923"),
         rawCounterparty := str "廖灵娇 6214830373529923" }] := by decide

/-! ## Claim C2 -/

/-- Claim C2, counterexample: on
`99999999 CNY 1,000.00 2,000.00 转账 张三 6214830373529923` the strict
pattern matches but `99999999` is not a valid calendar date; the strict
strategy nevertheless produces the transaction itself (raw date string,
empty weekday) while the lenient strategy would return `none` on this
line — so parsing does not fall through to the lenient strategy. -/
theorem c2_counterexample :
    parse_transaction_line
        (str "99999999 CNY 1,000.00 2,000.00 转账 张三 6214830373529923") =
      some { riqi := str "99999999", xingqi := [], recordDate := str "99999999",
             currency := str "CNY", amount := 1000, direction := str "收入",
             directionZh := str "收入", balance := 2000, transType := str "转账",
             category := str "转账", counterpartyName := str "张三",
             counterpartyAccount := some (str "6214830373529923"),
             rawCounterparty := str "张三 6214830373529923" }
    ∧ parse_transaction_line_lenient
        (normalize_text
          (str "99999999 CNY 1,000.00 2,000.00 转账 张三 6214830373529923")) =
      none :=
  ⟨by decide, by decide⟩

/-- Claim C2 as amended: when the strict pattern matches a valid line but
the leading 8-digit token is not a valid Gregorian date, the strict
strategy still produces the Transaction itself (no fallthrough to the
lenient strategy): the date field keeps the raw 8-digit string and the
weekday is empty. -/
theorem c2_amended :
    ∀ (line d cur a b ty cp rem : List Char) (qa qb : Rat),
    is_valid_transaction_line line = true →
    matchStrict (normalize_text line) = some ([d, cur, a, b, ty, cp], rem) →
    strptimeYmd d = none →
    pyFloat (a.filter (· ≠ ',')) = some qa →
    pyFloat (b.filter (· ≠ ',')) = some qb →
    ∃ t, parse_transaction_line line = some t ∧ t.riqi = d ∧ t.xingqi = [] := by
  intro line d cur a b ty cp rem qa qb hv hm hd ha hb
  simp only [parse_transaction_line, hv, if_true, hm, strictBuild, hd, ha, hb]
  exact ⟨_, rfl, rfl, rfl⟩

/-- Witness for C2's amended theorem at a concrete line with the invalid
date token `99999998`. -/
theorem c2_witness :
    ∃ t, parse_transaction_line
        (str "99999998 CNY 3,000.00 4,000.00 转账 李四 12345678") = some t ∧
      t.riqi = str "99999998" ∧ t.xingqi = [] :=
  c2_amended (str "99999998 CNY 3,000.00 4,000.00 转账 李四 12345678")
    (str "99999998") (str "CNY") (str "3,000.00") (str "4,000.00")
    (str "转账") (str "李四 12345678") [] 3000 4000
    (by decide) (by decide) (by decide) (by decide) (by decide)

/-! ## Claim C3 -/

/-- Claim C3, counterexample: the parenthesis-as-negative token
`(1,234.56)` is *not* coerced by the shared utility's rules inside the
parsing strategies: `safe_float` maps it to −1234.56, yet the line
`20250113 CNY (1,234.56) 2,000.00 转账 张三` parses (via the lenient
strategy, since the strict amount class has no parenthesis) with the
positive balance +1234.56. -/
theorem c3_counterexample :
    safe_float (str "(1,234.56)") 0 = -(mkRat 123456 100) ∧
    (parse_transaction_line
        (str "20250113 CNY (1,234.56) 2,000.00 转账 张三")).map
      (fun t => t.balance) = some (mkRat 123456 100) :=
  ⟨by decide, by decide⟩

/-- Claim C3 as amended: `safe_float` does implement the
parenthesis/CR-as-negative coercion, but neither parsing strategy uses
it: the strict pattern cannot match such tokens at all (fall-through to
lenient), and the lenient strategy extracts the bare digit run with a
positive value — for both the parenthesis and the CR convention, and
identically for the amount and balance positions. -/
theorem c3_amended :
    safe_float (str "(1,234.56)") 0 = -(mkRat 123456 100) ∧
    safe_float (str "1,234.56CR") 0 = -(mkRat 123456 100) ∧
    matchStrict (normalize_text
      (str "20250113 CNY (1,234.56) 2,000.00 转账 张三")) = none ∧
    matchStrict (normalize_text
      (str "20250113 CNY 1,234.56CR 2,000.00 转账 张三")) = none ∧
    (parse_transaction_line
        (str "20250113 CNY (1,234.56) 2,000.00 转账 张三")).map
      (fun t => (t.balance, t.direction)) = some (mkRat 123456 100, str "收入") ∧
    (parse_transaction_line
        (str "20250113 CNY 1,234.56CR 2,000.00 转账 张三")).map
      (fun t => (t.balance, t.direction)) = some (mkRat 123456 100, str "收入") :=
  ⟨by decide, by decide, by decide, by decide, by decide, by decide⟩

/-! ## Claim C6 -/

/-- Claim C6, counterexample: for the whitespace-only counterparty `"  "`
(two spaces) with no keyword hit, no corporate marker and amount below
50000, the classifier returns `其他` (other), not `未知交易` (unknown): the
source's unknown test is `not counterparty or counterparty in ["", " "]`,
which accepts only the empty string and a single space. -/
theorem c6_counterexample :
    classify_transaction (str "x") (str "  ") 0 = str "其他" ∧
    classify_transaction (str "x") (str "  ") 0 ≠ str "未知交易" :=
  ⟨by decide, by decide⟩

/-- Claim C6 as amended: `classify_transaction` is a total деterministic
function into the closed 13-value category list; a first hit in the
ordered keyword table wins, and with no keyword hit the fallback chain is
largeTransfer (amount ≥ 50000 and non-empty counterparty), corporate
(corporate-entity marker), unknown — for a counterparty equal to the
empty string or exactly one space, not any whitespace-only string — and
otherwise other. -/
theorem c6_amended :
    ∀ (ty cp : List Char) (amount : Rat),
    classify_transaction ty cp amount ∈ allCategories ∧
    (∀ v kws,
      catTable.find?
          (fun p => p.2.any fun k =>
            containsSub k (pyLower ty) || containsSub k (pyLower cp)) =
        some (v, kws) →
      classify_transaction ty cp amount = v) ∧
    (catTable.find?
        (fun p => p.2.any fun k =>
          containsSub k (pyLower ty) || containsSub k (pyLower cp)) = none →
      classify_transaction ty cp amount =
        (if (50000 : Rat) ≤ amount ∧ cp ≠ [] then str "大额转账"
         else if containsSub (str "公司") (pyLower cp) ||
             containsSub (str "有限") (pyLower cp) ||
             containsSub (str "集团") (pyLower cp) ||
             containsSub (str "科技") (pyLower cp) then str "对公交易"
         else if cp = [] ∨ cp = [' '] then str "未知交易"
         else str "其他")) := by
  intro ty cp amount
  refine ⟨?_, ?_, ?_⟩
  · simp only [classify_transaction]
    cases hf : catTable.find?
        (fun p => p.2.any fun k =>
          containsSub k (pyLower ty) || containsSub k (pyLower cp)) with
    | none => split_ifs <;> decide
    | some p =>
        have hmem : p ∈ catTable := List.mem_of_find?_eq_some hf
        have hall : ∀ q ∈ catTable, q.1 ∈ allCategories := by decide
        exact hall p hmem
  · intro v kws h
    simp only [classify_transaction]
    rw [h]
  · intro h
    simp only [classify_transaction]
    rw [h]

/-- Witness for C6's amended theorem: a triple with no keyword hit lands
in `其他` through the fallback chain. -/
theorem c6_witness :
    classify_transaction (str "hello") (str "world") 3 = str "其他" := by
  have h := (c6_amended (str "hello") (str "world") 3).2.2 (by decide)
  rw [h]; decide

/-! ## Claim C5 -/

/-- Claim C5: the validator returns true exactly when the five checks
hold conjunctively — trimmed length at least 10, no denylist substring,
not a short bare page-number line, normalized leading 8-digit date token,
and a two-fractional-digit decimal amount — and every line the validator
rejects yields no Transaction from the parser. -/
theorem c5_theorem :
    ∀ line : List Char,
    (is_valid_transaction_line line =
      (checkMinLen line && checkNoNoise (normalize_text line) &&
       checkNoPage (normalize_text line) &&
       matchDateStart (normalize_text line) &&
       searchAmount (normalize_text line))) ∧
    (is_valid_transaction_line line = false →
      parse_transaction_line line = none) := by
  intro line
  constructor
  · simp only [is_valid_transaction_line]
    by_cases h0 : line = [] ∨ (pyStrip line).length < 10
    · rw [if_pos h0]
      have h10 : ¬(10 ≤ (pyStrip line).length) := by
        rcases h0 with h | h
        · subst h; simp [pyStrip]
        · omega
      simp [checkMinLen, h10]
    · rw [if_neg h0]
      have h10 : checkMinLen line = true := by
        rcases not_or.mp h0 with ⟨-, h2⟩
        simp only [checkMinLen, decide_eq_true_eq]
        omega
      rw [h10, Bool.true_and]
      cases hA : skipKeywords.any (fun k => containsSub k (normalize_text line))
        <;> cases hP : searchPage (normalize_text line)
        <;> by_cases hL : (normalize_text line).length < 20
        <;> cases hD : matchDateStart (normalize_text line)
        <;> cases hAm : searchAmount (normalize_text line)
        <;> simp [hA, hP, hL, hD, hAm, checkNoNoise, checkNoPage]
  · intro h
    simp [parse_transaction_line, h]

/-- Witness for C5 at a concrete rejected line. -/
theorem c5_witness :
    is_valid_transaction_line (str "too short") = false ∧
    parse_transaction_line (str "too short") = none :=
  ⟨by decide, (c5_theorem (str "too short")).2 (by decide)⟩

/-! ## Claim C7 -/

/-- Appending a transaction at the end and then merging continuation text
touches exactly that last transaction. -/
theorem modifyLastMerge_append (ts : List Transaction) (t : Transaction)
    (l : List Char) :
    modifyLastMerge (ts ++ [t]) l = ts ++ [mergeCont t l] := by
  induction ts with
  | nil => rfl
  | cons a as ih =>
      cases as with
      | nil => simp [modifyLastMerge, mergeCont]
      | cons b bs => simpa [modifyLastMerge] using ih

/-- Claim C7: in the line-by-line pass, a line that follows a
successfully parsed transaction line and does not match the raw leading
8-digit-date shape is merged into the previous transaction — its
normalized text is appended (space-joined) to both `原始对手信息`
(rawCounterpartyText) and `对方名称` (counterpartyName) — and never starts
a new Transaction, irrespective of what the validator would say about
it. -/
theorem c7_theorem :
    ∀ (ts : List Transaction) (t : Transaction) (line : List Char),
    matchDateStart line = false →
    parseStep (ts ++ [t], true) line =
      (ts ++ [{ t with
          rawCounterparty := t.rawCounterparty ++ ' ' :: normalize_text line,
          counterpartyName := t.counterpartyName ++ ' ' :: normalize_text line }],
        true) := by
  intro ts t line h
  simp only [parseStep, h, Bool.not_false, Bool.and_true, if_true]
  rw [modifyLastMerge_append]
  rfl

/-- Witness for C7: a line that the validator would reject outright
(`转账附言续行` — no date, no amount, too short) is still merged into the
previous transaction and opens no new one. -/
theorem c7_witness :
    matchDateStart (str "转账附言续行") = false ∧
    is_valid_transaction_line (str "转账附言续行") = false ∧
    parseStep ([{ riqi := str "2025-01-13", xingqi := str "Monday",
                  recordDate := str "20250113", currency := str "CNY",
                  amount := 1, direction := str "收入",
                  directionZh := str "收入", balance := 2,
                  transType := str "转账", category := str "转账",
                  counterpartyName := str "张三",
                  counterpartyAccount := some [],
                  rawCounterparty := str "张三" }], true) (str "转账附言续行") =
      ([{ riqi := str "2025-01-13", xingqi := str "Monday",
          recordDate := str "20250113", currency := str "CNY",
          amount := 1, direction := str "收入",
          directionZh := str "收入", balance := 2,
          transType := str "转账", category := str "转账",
          counterpartyName := str "张三 转账附言续行",
          counterpartyAccount := some [],
          rawCounterparty := str "张三 转账附言续行" }], true) := by
  refine ⟨by decide, by decide, ?_⟩
  have h := c7_theorem []
    { riqi := str "2025-01-13", xingqi := str "Monday",
      recordDate := str "20250113", currency := str "CNY", amount := 1,
      direction := str "收入", directionZh := str "收入", balance := 2,
      transType := str "转账", category := str "转账",
      counterpartyName := str "张三", counterpartyAccount := some [],
      rawCounterparty := str "张三" } (str "转账附言续行") (by decide)
  rw [show normalize_text (str "转账附言续行") = str "转账附言续行" from by decide] at h
  simpa using h

/-! ## Claim C8 -/

/-- Claim C8, counterexample: with the single line
`20250113 CNY 1,000.00 2,000.00 转账 合计统计张三`, the primary pass yields
zero transactions (the validator's denylist contains `合计统计`), so the
fallback runs — yet the document-level result is empty although the line
matches the strict pattern: the fallback skips lines containing any of
its four noise keywords instead of matching every line. -/
theorem c8_counterexample :
    parse_transactions [str "20250113 CNY 1,000.00 2,000.00 转账 合计统计张三"] = [] ∧
    (specFallbackAccept
        (str "20250113 CNY 1,000.00 2,000.00 转账 合计统计张三")).isSome = true :=
  ⟨by decide, by decide⟩

/-- Claim C8 as amended: the fallback runs exactly when the primary pass
produced zero transactions; in fallback mode a line is accepted only via
a strict-pattern match (the lenient strategy and continuation merging are
never invoked), but lines containing one of the four noise keywords
(`合同ID号:`, `版本:`, `温馨提示`, `合计统计`) are skipped without being
matched. -/
theorem c8_amended :
    (∀ lines, parse_transactions lines =
      if primaryPass lines = [] then lines.filterMap fallbackLine
      else primaryPass lines) ∧
    (∀ line, matchStrict (normalize_text line) = none →
      fallbackLine line = none) ∧
    (∀ line t, fallbackLine line = some t →
      (matchStrict (normalize_text line)).isSome = true) := by
  refine ⟨fun lines => rfl, ?_, ?_⟩
  · intro line h
    simp only [fallbackLine, h]
    split <;> rfl
  · intro line t h
    simp only [fallbackLine] at h
    by_cases hs : fbSkipKeywords.any
        (fun k => containsSub k (normalize_text line)) = true
    · rw [if_pos hs] at h; exact absurd h (by simp)
    · rw [if_neg hs] at h
      cases hm : matchStrict (normalize_text line) with
      | none => rw [hm] at h; exact absurd h (by simp)
      | some pr => simp [hm]

/-- Witness for C8: a line on which the strict pattern fails (only five
columns) gets no transaction from fallback mode even though the primary
parser would accept it through the lenient strategy. -/
theorem c8_witness :
    fallbackLine (str "20250113 CNY 300,000.00 304,294.31 转账") = none ∧
    (parse_transaction_line
        (str "20250113 CNY 300,000.00 304,294.31 转账")).isSome = true :=
  ⟨c8_amended.2.1 (str "20250113 CNY 300,000.00 304,294.31 转账") (by decide),
   by decide⟩

/-! ## Claim C9 -/

/-- Claim C9: parsing is total — every line yields `none` or a complete
Transaction, never an exception — and when the strict pattern has matched
but the numeric conversion of the amount or the balance token fails, the
whole line parse aborts with `none` (no partial transaction). -/
theorem c9_theorem :
    (∀ line, parse_transaction_line line = none ∨
      ∃ t, parse_transaction_line line = some t) ∧
    (∀ line d cur a b ty cp rem,
      matchStrict (normalize_text line) = some ([d, cur, a, b, ty, cp], rem) →
      pyFloat (a.filter (· ≠ ',')) = none ∨ pyFloat (b.filter (· ≠ ',')) = none →
      parse_transaction_line line = none) := by
  constructor
  · intro line
    cases h : parse_transaction_line line with
    | none => exact Or.inl rfl
    | some t => exact Or.inr ⟨t, rfl⟩
  · intro line d cur a b ty cp rem hm hfail
    cases hv : is_valid_transaction_line line with
    | false => simp [parse_transaction_line, hv]
    | true =>
        simp only [parse_transaction_line, hv, if_true, hm, strictBuild]
        simp only [ne_eq, decide_not] at hfail
        rcases hfail with h | h
        · simp [h]
        · cases ha : pyFloat (a.filter fun x => !decide (x = ',')) <;> simp [h, ha]

/-- Witness for C9: the token `1.2.3` matches the strict amount class but
is no decimal, so the line dies as a whole. -/
theorem c9_witness :
    parse_transaction_line (str "20250113 CNY 1.2.3 2,000.00 转账 张三") = none :=
  c9_theorem.2 (str "20250113 CNY 1.2.3 2,000.00 转账 张三") (str "20250113")
    (str "CNY") (str "1.2.3") (str "2,000.00") (str "转账") (str "张三") []
    (by decide) (Or.inl (by decide))

/-! ## Claim C4 -/

/-- The ANSI scanner never produces more characters than its pending
state plus the remaining input. -/
theorem ansiGo_len (s : List Char) : ∀ st : AnsiState,
    (ansiGo st s).length ≤
      (match st with
       | .norm => 0
       | .esc => 1
       | .body acc => 2 + acc.length) + s.length := by
  induction s with
  | nil =>
      intro st
      cases st with
      | norm => simp [ansiGo]
      | esc => simp [ansiGo]
      | body acc => simp [ansiGo]; omega
  | cons c cs ih =>
      intro st
      cases st with
      | norm =>
          simp only [ansiGo]; split
          · have h := ih .esc; simp at h ⊢; omega
          · have h := ih .norm; simp at h ⊢; omega
      | esc =>
          simp only [ansiGo]; split
          · have h := ih (.body []); simp at h ⊢; omega
          · split
            · have h := ih .esc; simp at h ⊢; omega
            · have h := ih .norm; simp at h ⊢; omega
      | body acc =>
          simp only [ansiGo]; split
          · have h := ih .norm; simp at h ⊢; omega
          · split
            · have h := ih (.body (c :: acc)); simp at h ⊢; omega
            · split
              · have h := ih .esc; simp at h ⊢; omega
              · have h := ih .norm; simp at h ⊢; omega

/-- Whitespace collapsing never lengthens the text. -/
theorem collapseGo_len (s : List Char) : ∀ b,
    (collapseGo b s).length ≤ s.length := by
  induction s with
  | nil => intro b; simp [collapseGo]
  | cons c cs ih =>
      intro b
      simp only [collapseGo]; split
      · split
        · exact le_trans (ih true) (Nat.le_succ _)
        · have h := ih true; simp at h ⊢; omega
      · have h := ih false; simp at h ⊢; omega

/-- `dropWhile` never lengthens a list. -/
theorem dropWhile_len (p : Char → Bool) (s : List Char) :
    (s.dropWhile p).length ≤ s.length := by
  induction s with
  | nil => simp
  | cons c cs ih =>
      simp only [List.dropWhile]; split
      · exact le_trans ih (Nat.le_succ _)
      · simp

/-- Stripping never lengthens the text. -/
theorem pyStrip_len (s : List Char) : (pyStrip s).length ≤ s.length := by
  unfold pyStrip
  calc ((s.dropWhile pyIsSpace).reverse.dropWhile pyIsSpace).reverse.length
      = ((s.dropWhile pyIsSpace).reverse.dropWhile pyIsSpace).length := by
        simp
    _ ≤ (s.dropWhile pyIsSpace).reverse.length := dropWhile_len _ _
    _ = (s.dropWhile pyIsSpace).length := by simp
    _ ≤ s.length := dropWhile_len _ _

/-- `clean_text` never lengthens the text. -/
theorem clean_text_len (s : List Char) : (clean_text s).length ≤ s.length := by
  unfold clean_text
  split
  · simp
  · calc (pyStrip (collapseWs (((ansiStrip s).filter fun c => !isCtrlRemoved c).filter
          fun c => !isMojibake c))).length
        ≤ (collapseWs (((ansiStrip s).filter fun c => !isCtrlRemoved c).filter
            fun c => !isMojibake c)).length := pyStrip_len _
      _ ≤ (((ansiStrip s).filter fun c => !isCtrlRemoved c).filter
            fun c => !isMojibake c).length := collapseGo_len _ _
      _ ≤ ((ansiStrip s).filter fun c => !isCtrlRemoved c).length :=
            List.length_filter_le _ _
      _ ≤ (ansiStrip s).length := List.length_filter_le _ _
      _ ≤ s.length := by simpa using ansiGo_len s .norm

/-- Claim C4, counterexample: `normalize` is not idempotent.  On
`"a ​ b"` (a zero-width space between two spaces) the first pass
removes the non-printable character and leaves two adjacent spaces, which
only the second pass collapses. -/
theorem c4_counterexample :
    normalize_text (normalize_text ['a', ' ', '​', ' ', 'b']) ≠
      normalize_text ['a', ' ', '​', ' ', 'b'] := by decide

/-- Claim C4 as amended: `normalize` is total and never increases the
length of its input, but it is not idempotent. -/
theorem c4_amended :
    (∀ x : List Char, (normalize_text x).length ≤ x.length) ∧
    (∃ x : List Char,
      normalize_text (normalize_text x) ≠ normalize_text x) := by
  constructor
  · intro x
    unfold normalize_text
    split
    · simp
    · calc (pyStrip (pyStrip ((clean_text x).filter fun c =>
              pyIsPrintable c || keepPunct c))).length
          ≤ (pyStrip ((clean_text x).filter fun c =>
              pyIsPrintable c || keepPunct c)).length := pyStrip_len _
        _ ≤ ((clean_text x).filter fun c =>
              pyIsPrintable c || keepPunct c).length := pyStrip_len _
        _ ≤ (clean_text x).length := List.length_filter_le _ _
        _ ≤ x.length := clean_text_len x
  · exact ⟨['a', ' ', '​', ' ', 'b'], by decide⟩

/-! ## Claim C10: matcher lemmas -/

/-- The empty pattern matches, consuming nothing. -/
theorem matchSeq_nil (s : List Char) : matchSeq [] s = some ([], s) := rfl

/-- One unfolding step of `matchSeq`. -/
theorem matchSeq_cons (it : RItem) (rest : List RItem) (s : List Char) :
    matchSeq (it :: rest) s = tryCounts it (matchSeq rest) s (itemMax it s) :=
  rfl

/-- When the continuation succeeds at the count tried first, `tryCounts`
returns immediately. -/
theorem tryCounts_hit (it : RItem)
    (K : List Char → Option (List (List Char) × List Char)) (s : List Char)
    (caps : List (List Char)) (rem : List Char) (n : Nat)
    (hlo : it.lo ≤ n) (hK : K (s.drop n) = some (caps, rem)) :
    tryCounts it K s n = some (pushCap it (s.take n) caps, rem) := by
  cases n with
  | zero =>
      have h0 : it.lo = 0 := Nat.le_zero.mp hlo
      simp only [List.drop_zero] at hK
      simp [tryCounts, h0, hK]
  | succ m =>
      have hn : ¬(m + 1 < it.lo) := by omega
      simp [tryCounts, hn, hK]

/-- An item whose greedy first try is zero repetitions, with lower bound
zero and no capture, is a no-op. -/
theorem matchSeq_cons_skip (it : RItem) (rest : List RItem) (s : List Char)
    (h1 : itemMax it s = 0) (h2 : it.lo = 0) (h3 : it.cap = false) :
    matchSeq (it :: rest) s = matchSeq rest s := by
  rw [matchSeq_cons, h1]
  cases hK : matchSeq rest s with
  | none => simp [tryCounts, h2, hK]
  | some pr => cases pr with
      | mk caps rem => simp [tryCounts, h2, hK, pushCap, h3]

/-- An uncaptured item whose greedy first try `n` lets the rest of the
pattern succeed consumes exactly `n` characters. -/
theorem matchSeq_cons_take (it : RItem) (rest : List RItem) (s : List Char)
    (n : Nat) (caps : List (List Char)) (rem : List Char)
    (h1 : itemMax it s = n) (h2 : it.lo ≤ n) (h3 : it.cap = false)
    (hK : matchSeq rest (s.drop n) = some (caps, rem)) :
    matchSeq (it :: rest) s = some (caps, rem) := by
  rw [matchSeq_cons, h1, tryCounts_hit it (matchSeq rest) s caps rem n h2 hK]
  simp [pushCap, h3]

/-- A run stops at its head when the head is out of class. -/
theorem maxRun_head_false (cls : Char → Bool) (c : Char) (cs : List Char)
    (h : cls c = false) : maxRun cls (c :: cs) = 0 := by
  simp [maxRun, h]

/-- A run extends over an in-class head. -/
theorem maxRun_head_true (cls : Char → Bool) (c : Char) (cs : List Char)
    (h : cls c = true) : maxRun cls (c :: cs) = maxRun cls cs + 1 := by
  simp [maxRun, h]

/-- The maximal run over `xs ++ y :: ys` with `xs` fully in class and `y`
out of class is exactly `xs`. -/
theorem maxRun_append_all (cls : Char → Bool) (xs : List Char) (y : Char)
    (ys : List Char) (hxs : ∀ c ∈ xs, cls c = true) (hy : cls y = false) :
    maxRun cls (xs ++ y :: ys) = xs.length := by
  induction xs with
  | nil => simpa using maxRun_head_false cls y ys hy
  | cons a as ih =>
      have ha : cls a = true := hxs a (List.mem_cons_self a as)
      have ih2 := ih fun c hc => hxs c (List.mem_cons_of_mem a hc)
      simp [maxRun, ha, ih2]

/-! ## Claim C10: character facts -/

/-- Digits are codepoints 48–57. -/
theorem isDig_val {c : Char} (h : isDig c = true) :
    48 ≤ c.toNat ∧ c.toNat ≤ 57 := by
  simpa [isDig] using h

/-- A digit is not a sign. -/
theorem isDig_not_sign {c : Char} (h : isDig c = true) : isSignChar c = false := by
  have hv := isDig_val h
  simp only [isSignChar, Bool.or_eq_false_iff, decide_eq_false_iff_not]
  omega

/-- A digit is not whitespace. -/
theorem isDig_not_space {c : Char} (h : isDig c = true) : pyIsSpace c = false := by
  have hv := isDig_val h
  simp only [pyIsSpace, Bool.or_eq_false_iff, decide_eq_false_iff_not,
    Bool.and_eq_false_iff, decide_eq_true_eq, not_le, not_lt]
  omega

/-- A digit is in the `[\d,]` class. -/
theorem isDig_digComma {c : Char} (h : isDig c = true) : isDigComma c = true := by
  simp [isDigComma, h]

/-! ## Claim C10: digit-token facts -/

/-- An all-digit string has no decimal point. -/
theorem splitDot_digits (d : List Char) (h : d.all isDig = true) :
    splitDot d = none := by
  induction d with
  | nil => rfl
  | cons c cs ih =>
      rw [List.all_cons, Bool.and_eq_true] at h
      have hne : ¬c = '.' := fun he => by
        subst he; exact absurd h.1 (by decide)
      have ihcs := ih h.2
      simp [splitDot, hne, ihcs]

/-- `float()` on a nonempty all-digit string is its numeric value. -/
theorem pyFloat_digits (d : List Char) (hne : d ≠ []) (h : d.all isDig = true) :
    pyFloat d = some (mkRat (digitsVal d) 1) := by
  cases d with
  | nil => exact absurd rfl hne
  | cons c cs =>
      rw [List.all_cons, Bool.and_eq_true] at h
      have h1 : ¬c = '-' := fun he => by
        subst he; exact absurd h.1 (by decide)
      have h2 : ¬c = '+' := fun he => by
        subst he; exact absurd h.1 (by decide)
      have hall : (c :: cs).all isDig = true := by
        rw [List.all_cons, Bool.and_eq_true]; exact h
      have hsd := splitDot_digits (c :: cs) hall
      simp [pyFloat, h1, h2, hsd, hall]

/-- Removing commas and spaces from an all-digit string is a no-op. -/
theorem stripCS_digits (d : List Char) (h : d.all isDig = true) :
    stripCommaSpace d = d := by
  unfold stripCommaSpace
  rw [List.filter_eq_self]
  intro a ha
  have hd := List.all_eq_true.mp h a ha
  have h1 : ¬a = ',' := fun he => by
    subst he; exact absurd hd (by decide)
  have h2 : ¬a = ' ' := fun he => by
    subst he; exact absurd hd (by decide)
  simp [h1, h2]

/-- The numeric-token pattern, applied at a digit run that is followed by
a space, greedily matches exactly that digit run. -/
theorem numTok_digits (c0 : Char) (d' rest : List Char)
    (hc0 : isDig c0 = true) (hd' : d'.all isDig = true) :
    matchSeq numTokItems (c0 :: (d' ++ ' ' :: rest)) = some ([], ' ' :: rest) := by
  have hsign : itemMax numSignItem (c0 :: (d' ++ ' ' :: rest)) = 0 := by
    simp [itemMax, numSignItem, maxRun_head_false _ _ _ (isDig_not_sign hc0)]
  have hsp : itemMax numSpItem (c0 :: (d' ++ ' ' :: rest)) = 0 := by
    simp [itemMax, numSpItem, maxRun_head_false _ _ _ (isDig_not_space hc0)]
  have hdig : itemMax numDigItem (c0 :: (d' ++ ' ' :: rest)) = 1 := by
    simp only [itemMax, numDigItem, maxRun_head_true _ _ _ hc0]
    omega
  have hrun : itemMax numRunItem (d' ++ ' ' :: rest) = d'.length := by
    have hmr := maxRun_append_all isDigComma d' ' ' rest
      (fun c hc => isDig_digComma (List.all_eq_true.mp hd' c hc)) (by decide)
    simp [itemMax, numRunItem, hmr]
  have hdot : itemMax numDotItem (' ' :: rest) = 0 := by
    simp [itemMax, numDotItem, maxRun_head_false _ _ _ (by decide : isDotChar ' ' = false)]
  have hfrac : itemMax numFracItem (' ' :: rest) = 0 := by
    simp [itemMax, numFracItem, maxRun_head_false _ _ _ (by decide : isDig ' ' = false)]
  have e6 : matchSeq [numFracItem] (' ' :: rest) = some ([], ' ' :: rest) := by
    rw [matchSeq_cons_skip _ _ _ hfrac rfl rfl, matchSeq_nil]
  have e5 : matchSeq [numDotItem, numFracItem] (' ' :: rest) = some ([], ' ' :: rest) := by
    rw [matchSeq_cons_skip _ _ _ hdot rfl rfl]; exact e6
  have e4 : matchSeq [numRunItem, numDotItem, numFracItem] (d' ++ ' ' :: rest) =
      some ([], ' ' :: rest) := by
    refine matchSeq_cons_take _ _ _ d'.length [] (' ' :: rest) hrun (Nat.zero_le _) rfl ?_
    rw [List.drop_left]
    exact e5
  have e3 : matchSeq [numDigItem, numRunItem, numDotItem, numFracItem]
      (c0 :: (d' ++ ' ' :: rest)) = some ([], ' ' :: rest) := by
    refine matchSeq_cons_take _ _ _ 1 [] (' ' :: rest) hdig (by decide) rfl ?_
    simpa using e4
  have e2 : matchSeq [numSpItem, numDigItem, numRunItem, numDotItem, numFracItem]
      (c0 :: (d' ++ ' ' :: rest)) = some ([], ' ' :: rest) := by
    rw [matchSeq_cons_skip _ _ _ hsp rfl rfl]; exact e3
  show matchSeq
    (numSignItem :: [numSpItem, numDigItem, numRunItem, numDotItem, numFracItem])
    (c0 :: (d' ++ ' ' :: rest)) = some ([], ' ' :: rest)
  rw [matchSeq_cons_skip _ _ _ hsign rfl rfl]
  exact e2

/-- On a line that starts with its (8-digit) date and a space, the first
numeric token `findall` extracts is exactly the date run. -/
theorem findAllNums_head (c0 : Char) (d' rest : List Char)
    (hc0 : isDig c0 = true) (hd' : d'.all isDig = true) :
    ∃ T, findAllNums ((c0 :: d') ++ ' ' :: rest) = (c0 :: d') :: T := by
  have hm := numTok_digits c0 d' rest hc0 hd'
  cases hfuel : ((c0 :: d') ++ ' ' :: rest).length with
  | zero => simp at hfuel
  | succ n =>
      refine ⟨findAllGo n (' ' :: rest), ?_⟩
      show findAllGo ((c0 :: d') ++ ' ' :: rest).length ((c0 :: d') ++ ' ' :: rest) =
        (c0 :: d') :: findAllGo n (' ' :: rest)
      rw [hfuel]
      show findAllGo (n + 1) (c0 :: (d' ++ ' ' :: rest)) = _
      simp only [findAllGo, hm]
      congr 1
      have hl : (c0 :: (d' ++ ' ' :: rest)).length - (' ' :: rest).length =
          (c0 :: d').length := by
        simp [List.length_append]
        omega
      rw [hl]
      exact List.take_left (c0 :: d') (' ' :: rest)

/-- `re.search(r'(\d{8})')` on a line starting with its 8-digit date
finds exactly that date. -/
theorem search8_head (c0 : Char) (d' rest : List Char)
    (hlen : (c0 :: d').length = 8) (hdig : (c0 :: d').all isDig = true) :
    search8 ((c0 :: d') ++ ' ' :: rest) = some (c0 :: d') := by
  have htake : (c0 :: (d' ++ ' ' :: rest)).take 8 = c0 :: d' := by
    rw [← hlen]
    exact List.take_left (c0 :: d') (' ' :: rest)
  show search8 (c0 :: (d' ++ ' ' :: rest)) = some (c0 :: d')
  simp only [search8]
  rw [htake, hlen, hdig]
  simp

/-- Claim C10: on a validated line that begins with its 8-digit date (so
the strict pattern failed and the lenient strategy ran and succeeded),
the date run itself is the first numeric token `findall` extracts, the
resulting transaction's amount is the numeric value of the date digits
(direction income), and its balance is the value of the line's second
numeric token — the first true monetary token. -/
theorem c10_theorem :
    ∀ (line d rest : List Char) (t : Transaction),
    is_valid_transaction_line line = true →
    matchStrict (normalize_text line) = none →
    normalize_text line = d ++ ' ' :: rest →
    d.length = 8 →
    d.all isDig = true →
    parse_transaction_line_lenient (normalize_text line) = some t →
    parse_transaction_line line = some t ∧
    (findAllNums (normalize_text line)).head? = some d ∧
    t.amount = (digitsVal d : Rat) ∧
    t.direction = str "收入" ∧
    (∀ tok2 toks, findAllNums (normalize_text line) = d :: tok2 :: toks →
      pyFloat (stripCommaSpace tok2) = some t.balance) := by
  intro line d rest t hv hsm hshape hlen hdig hlt
  have hmain : parse_transaction_line line = some t := by
    simp only [parse_transaction_line, hv, if_true, hsm]
    exact hlt
  cases d with
  | nil => simp at hlen
  | cons c0 d' =>
      rw [List.all_cons, Bool.and_eq_true] at hdig
      obtain ⟨T, hT⟩ := findAllNums_head c0 d' rest hdig.1 hdig.2
      rw [← hshape] at hT
      have hall : (c0 :: d').all isDig = true := by
        rw [List.all_cons, Bool.and_eq_true]; exact hdig
      have hs8 : search8 (normalize_text line) = some (c0 :: d') := by
        rw [hshape]; exact search8_head c0 d' rest hlen hall
      have hpd : pyFloat (stripCommaSpace (c0 :: d')) =
          some (mkRat (digitsVal (c0 :: d')) 1) := by
        rw [stripCS_digits _ hall]
        exact pyFloat_digits _ (by simp) hall
      have hnn : (0 : Rat) ≤ mkRat (digitsVal (c0 :: d')) 1 := by
        rw [Rat.mkRat_one]
        exact_mod_cast Int.ofNat_nonneg _
      simp only [parse_transaction_line_lenient, hs8] at hlt
      cases hst : strptimeYmd (c0 :: d') with
      | none => rw [hst] at hlt; simp at hlt
      | some dt =>
          simp only [hst, hT] at hlt
          cases T with
          | nil => simp at hlt
          | cons t1 Ttail =>
              simp only [hpd] at hlt
              cases hb : pyFloat (stripCommaSpace t1) with
              | none => simp only [hb] at hlt; simp at hlt
              | some bal =>
                  simp only [hb, if_pos hnn] at hlt
                  have ht := (Option.some.injEq _ _).mp hlt
                  refine ⟨hmain, ?_, ?_, ?_, ?_⟩
                  · rw [hT]; rfl
                  · rw [← ht]
                    show mkRat (digitsVal (c0 :: d')) 1 = ((digitsVal (c0 :: d') : Nat) : Rat)
                    rw [Rat.mkRat_one]
                    push_cast
                    rfl
                  · rw [← ht]
                  · intro tok2 toks heq
                    rw [hT] at heq
                    have h2 : t1 = tok2 := by
                      injection heq with h1 h2'
                      injection h2' with h3 h4
                    rw [← h2, hb, ← ht]

/-- Witness for C10: the five-column line
`20250113 CNY 300,000.00 304,294.31 转账` (no counterparty, so the strict
pattern fails) parses through the lenient strategy with amount 20250113
(the date digits) and balance 300000 (the first monetary token). -/
theorem c10_witness :
    parse_transaction_line (str "20250113 CNY 300,000.00 304,294.31 转账") =
      some { riqi := str "2025-01-13", xingqi := str "Monday",
             recordDate := str "20250113", currency := str "CNY",
             amount := 20250113, direction := str "收入",
             directionZh := str "收入", balance := 300000,
             transType := str "CNY", category := str "转账",
             counterpartyName := str "304,294.31 转账",
             counterpartyAccount := none,
             rawCounterparty := str "304,294.31 转账" } ∧
    (findAllNums
        (normalize_text (str "20250113 CNY 300,000.00 304,294.31 转账"))).head? =
      some (str "20250113") := by
  have h := c10_theorem (str "20250113 CNY 300,000.00 304,294.31 转账")
    (str "20250113") (str "CNY 300,000.00 304,294.31 转账")
    { riqi := str "2025-01-13", xingqi := str "Monday",
      recordDate := str "20250113", currency := str "CNY",
      amount := 20250113, direction := str "收入",
      directionZh := str "收入", balance := 300000,
      transType := str "CNY", category := str "转账",
      counterpartyName := str "304,294.31 转账",
      counterpartyAccount := none,
      rawCounterparty := str "304,294.31 转账" }
    (by decide) (by decide) (by decide) (by decide) (by decide) (by decide)
  exact ⟨h.1, h.2.1⟩

end Forge
